import Mathlib

/-!
Shallow embedding of the Flask user-registry application (`src/app.py`) and
proofs of the specification claims about it.

Modelling conventions:
* JSON / pandas scalar values are modelled by `Value`: Python `None` and
  pandas `NaN` (everything `pd.isna` reports as missing) are `Value.vNone`;
  strings, booleans and numbers are the other constructors.  Python floats
  are modelled by exact rationals (`Rat`); the inputs appearing in the spec
  and tests are all exactly representable.
* Python `float(str)` / `int(str)` are modelled by `parsePyFloat` /
  `parsePyInt`, implementing the decimal-literal core of Python's grammar
  (optional surrounding whitespace, optional sign, digits, and for floats an
  optional fractional part).  Exponents, `inf`/`nan` and underscore
  separators are outside the modelled grammar; no claim depends on them.
* `str.strip()` is `pstrip` (drop leading and trailing whitespace).
* Each HTTP handler becomes a function `state → response × state`, where the
  state is the module-level `users` list.  An uncaught Python exception
  (which makes Flask answer HTTP 500) is a dedicated `crash` response; the
  state returned with it is the value of `users` at the moment of the raise.
-/

/-- A JSON / pandas scalar value.  `vNone` stands for Python `None` and for
pandas `NaN` — exactly the values on which `pd.isna` is true. -/
inductive Value where
  | vNone : Value
  | vStr : String → Value
  | vNum : Rat → Value
  | vBool : Bool → Value
deriving DecidableEq, Repr

/-- `pd.isna` on a scalar: true exactly for `None` / `NaN`. -/
def Value.isna : Value → Bool
  | .vNone => true
  | _ => false

/-- The whitespace characters stripped by Python's `str.strip()` (ASCII part). -/
def isPySpace (c : Char) : Bool :=
  c == ' ' || c == '\t' || c == '\n' || c == '\r' || c == '\x0b' || c == '\x0c'

/-- Drop leading and trailing whitespace from a character list. -/
def stripChars (l : List Char) : List Char :=
  ((l.dropWhile isPySpace).reverse.dropWhile isPySpace).reverse

/-- Python `s.strip()`. -/
def pstrip (s : String) : String :=
  ⟨stripChars s.data⟩

/-- Numeric value of a digit character. -/
def digitVal (c : Char) : Nat := c.toNat - 48

/-- Numeric value of a digit string, most significant digit first. -/
def digitsVal (l : List Char) : Nat :=
  l.foldl (fun a c => 10 * a + digitVal c) 0

/-- Split an optional leading sign; returns (isNegative, rest). -/
def splitSign : List Char → Bool × List Char
  | '-' :: r => (true, r)
  | '+' :: r => (false, r)
  | l => (false, l)

/-- Unsigned decimal literal accepted by Python `float()`: `123`, `123.45`,
`123.` or `.45`.  The value `intpart.fracpart` is the exact rational
`digits(intpart ++ fracpart) / 10 ^ length fracpart`. -/
def parseUFloat (l : List Char) : Option Rat :=
  let ip := l.takeWhile Char.isDigit
  match l.dropWhile Char.isDigit with
  | [] => if ip.isEmpty then none else some (mkRat (digitsVal ip) 1)
  | '.' :: fp =>
      if fp.all Char.isDigit && !(ip.isEmpty && fp.isEmpty) then
        some (mkRat (digitsVal (ip ++ fp)) (10 ^ fp.length))
      else none
  | _ => none

/-- Python `float(s)` on a string (decimal-literal core of the grammar). -/
def parsePyFloat (s : String) : Option Rat :=
  let p := splitSign (stripChars s.data)
  (parseUFloat p.2).map (fun q => if p.1 then -q else q)

/-- Python `int(s)` on a string: optional whitespace, optional sign, digits
only (so `int("30.0")` fails even though `float("30.0")` succeeds). -/
def parsePyInt (s : String) : Option Int :=
  let p := splitSign (stripChars s.data)
  if !p.2.isEmpty && p.2.all Char.isDigit then
    some (if p.1 then -(digitsVal p.2 : Int) else (digitsVal p.2 : Int))
  else none

/-- Python `float(v)`: numbers pass through, booleans become 0/1, strings are
parsed; `None` raises (modelled as `none`; in the validator that branch is
shadowed by the earlier `pd.isna` check). -/
def pyFloat : Value → Option Rat
  | .vNone => none
  | .vStr s => parsePyFloat s
  | .vNum q => some q
  | .vBool b => some (if b then 1 else 0)

/-- Truncation toward zero, as Python `int(float)`. -/
def ratTrunc (q : Rat) : Int :=
  if 0 ≤ q.num then q.num.ediv q.den else -((-q.num).ediv q.den)

/-- Python `int(v)` as used by `create_user` / `upload_users` on the raw
request value: floats truncate toward zero, booleans become 0/1, strings
must be pure integer literals, `None` raises. -/
def pyInt : Value → Option Int
  | .vNone => none
  | .vStr s => parsePyInt s
  | .vNum q => some (ratTrunc q)
  | .vBool b => some (if b then 1 else 0)

/-- The name check of `validate_user_data`:
`not isinstance(name, str) or pd.isna(name) or name.strip() == ''`
(`pd.isna` is false on every `str`, so only the other two conjuncts matter). -/
def nameEmpty : Value → Bool
  | .vStr s => pstrip s == ""
  | _ => true

/-- The validation errors returned by `validate_user_data`, one constructor
per distinct error message string. -/
inductive VErr where
  /-- "Name cannot be empty" -/
  | emptyName
  /-- "Age cannot be empty" -/
  | emptyAge
  /-- "Age must be a number" -/
  | notANumber
  /-- "Age must be an integer" -/
  | notAnInteger
  /-- "Age must be between 1 and 120" -/
  | outOfRange
deriving DecidableEq, Repr

/-- `validate_user_data(name, age)` from `src/app.py`: returns `none` when the
pair is valid, otherwise the first failing check's error.  A Python float is
a whole number (`is_integer()`) iff its rational value has denominator 1. -/
def validate_user_data (name age : Value) : Option VErr :=
  if nameEmpty name then some .emptyName
  else if age.isna then some .emptyAge
  else
    match pyFloat age with
    | none => some .notANumber
    | some q =>
      if q.den ≠ 1 then some .notAnInteger
      else if ratTrunc q ≤ 0 ∨ 120 < ratTrunc q then some .outOfRange
      else none

/-- A stored user record (`{'Name': ..., 'Age': ...}`). -/
structure User where
  Name : String
  Age : Int
deriving DecidableEq, Repr

/-- `user_exists(name)`: `any(user['Name'] == name for user in users)`. -/
def user_exists (users : List User) (name : String) : Bool :=
  users.any (fun u => u.Name == name)

/-- `str(name)` as applied after validation has established that `name` is a
Python `str`; the other branches are unreachable at every call site. -/
def strOf : Value → String
  | .vStr s => s
  | _ => ""

/-- `dict.get(k)`: the value under the first matching key, `None` if absent. -/
def dictGet (d : List (String × Value)) (k : String) : Value :=
  match d.find? (fun kv => kv.1 == k) with
  | some kv => kv.2
  | none => .vNone

/-- Response of the `POST /users` handler `create_user`. -/
inductive CreateOut where
  /-- 400 "Name and age are required" (`if not data`). -/
  | missingBody
  /-- 400 with the validator's error message. -/
  | invalid : VErr → CreateOut
  /-- 400 "User already exists". -/
  | duplicate
  /-- 201 with the created record. -/
  | created : User → CreateOut
  /-- Uncaught exception, HTTP 500. -/
  | crash
deriving DecidableEq, Repr

/-- `create_user` from `src/app.py`.  The argument `data` is the decoded JSON
body: `none` for a `null` body, otherwise the key/value pairs of the decoded
object (an empty object is falsy in Python, hence also `missingBody`).
Note the source coerces `int(age)` on the raw request value after validation
and before the duplicate check; when that raises, the request dies with an
uncaught exception. -/
def create_user (users : List User) (data : Option (List (String × Value))) :
    CreateOut × List User :=
  match data with
  | none => (.missingBody, users)
  | some d =>
    if d.isEmpty then (.missingBody, users)
    else
      let name := dictGet d "Name"
      let age := dictGet d "Age"
      match validate_user_data name age with
      | some e => (.invalid e, users)
      | none =>
        let nm := pstrip (strOf name)
        match pyInt age with
        | none => (.crash, users)
        | some a =>
          if user_exists users nm then (.duplicate, users)
          else (.created ⟨nm, a⟩, users ++ [⟨nm, a⟩])

/-- Response of the `DELETE /users/<name>` handler. -/
inductive DeleteOut where
  /-- 200 "User <name> deleted successfully". -/
  | deleted : String → DeleteOut
  /-- 404 "User not found". -/
  | notFound
deriving DecidableEq, Repr

/-- `delete_user` from `src/app.py`: scan the list, remove the first record
whose `Name` equals the path parameter exactly, else 404. -/
def delete_user (users : List User) (name : String) : DeleteOut × List User :=
  match users with
  | [] => (.notFound, [])
  | u :: rest =>
    if u.Name == name then (.deleted name, rest)
    else
      let r := delete_user rest name
      (r.1, u :: r.2)

/-- `get_users` (`GET /users`): respond with the records and their count. -/
def get_users (users : List User) : (List User × Nat) × List User :=
  ((users, users.length), users)

/-- A parsed CSV source as produced by `pd.read_csv` followed by
`df.to_dict('records')`: the column names, and one key/value row per data
line (pandas fills missing cells with `NaN`, i.e. `Value.vNone`). -/
structure Table where
  cols : List String
  rows : List (List (String × Value))
deriving DecidableEq, Repr

/-- A per-row failure recorded by `upload_users` in `invalid_users`. -/
inductive RowErr where
  /-- The validator's error message. -/
  | vfail : VErr → RowErr
  /-- "User <name> already exists". -/
  | dup : String → RowErr
deriving DecidableEq, Repr

/-- The row loop of `upload_users`: processes the rows in order starting at
0-based index `idx`, returning the final `users` list, the `added_users`
list, the `invalid_users` list (row number = index + 2), and whether the
loop died with an uncaught exception (from `int(age)` on a value the
validator's `float(age)` accepted). -/
def uploadLoop (users : List User) (idx : Nat) :
    List (List (String × Value)) →
      List User × List User × List (Nat × RowErr) × Bool
  | [] => (users, [], [], false)
  | row :: rest =>
    let name := dictGet row "Name"
    let age := dictGet row "Age"
    match validate_user_data name age with
    | some e =>
      let r := uploadLoop users (idx + 1) rest
      (r.1, r.2.1, (idx + 2, .vfail e) :: r.2.2.1, r.2.2.2)
    | none =>
      let nm := pstrip (strOf name)
      match pyInt age with
      | none => (users, [], [], true)
      | some a =>
        if user_exists users nm then
          let r := uploadLoop users (idx + 1) rest
          (r.1, r.2.1, (idx + 2, .dup nm) :: r.2.2.1, r.2.2.2)
        else
          let u : User := ⟨nm, a⟩
          let r := uploadLoop (users ++ [u]) (idx + 1) rest
          (r.1, u :: r.2.1, r.2.2.1, r.2.2.2)

/-- Response of the `POST /users/upload` handler (for a parsed table; the
no-file / wrong-extension / unparseable-CSV branches are upstream of the
table and are not modelled). -/
inductive UploadOut where
  /-- 400 'CSV must contain "Name" and "Age" columns'. -/
  | missingColumns
  /-- 201 with `added_users` and `invalid_users`. -/
  | report : List User → List (Nat × RowErr) → UploadOut
  /-- Uncaught exception, HTTP 500. -/
  | crash
deriving DecidableEq, Repr

/-- `upload_users` from `src/app.py`, starting at the column check (the file
has already been parsed into `t`). -/
def upload_users (users : List User) (t : Table) : UploadOut × List User :=
  if t.cols.contains "Name" && t.cols.contains "Age" then
    let r := uploadLoop users 0 t.rows
    if r.2.2.2 then (.crash, r.1) else (.report r.2.1 r.2.2.1, r.1)
  else (.missingColumns, users)

/-- The group key of a user: `df['Name'].str[0].str.upper()`.  An empty name
yields `NaN` (`none`), which pandas' `groupby` drops. -/
def userGroup (u : User) : Option Char :=
  u.Name.data.head?.map Char.toUpper

/-- The distinct group keys of the collection. -/
def avgKeys (users : List User) : List Char :=
  (users.filterMap userGroup).dedup

/-- The ages of the records in group `c`. -/
def groupAges (users : List User) (c : Char) : List Int :=
  (users.filter (fun u => userGroup u == some c)).map User.Age

/-- Arithmetic mean of a list of integers, as an exact rational. -/
def ratMean (l : List Int) : Rat :=
  (l.map (fun i => (i : Rat))).sum / (l.length : Rat)

/-- Floor of a rational (denominator is positive, so `ediv` is floor division). -/
def ratFloor (q : Rat) : Int := q.num.ediv q.den

/-- Round to the nearest integer, ties to even — the rounding of
numpy/pandas `round`. -/
def roundHalfEven (q : Rat) : Int :=
  let f := ratFloor q
  let r := q - (f : Rat)
  if r < 1 / 2 then f
  else if 1 / 2 < r then f + 1
  else if f % 2 = 0 then f else f + 1

/-- `round(x, 2)` of pandas: round `100 * x` half-to-even, divide back. -/
def round2 (q : Rat) : Rat := (roundHalfEven (100 * q) : Rat) / 100

/-- Response of the `GET /users/average-age` handler. -/
inductive AvgOut where
  /-- 404 "No users found". -/
  | noUsers
  /-- 200 with the group-to-average mapping. -/
  | ok : List (Char × Rat) → AvgOut
deriving DecidableEq, Repr

/-- `get_average_age_by_group` from `src/app.py`: 404 on an empty collection,
otherwise the mean age per first-letter group, rounded to 2 decimals.
(pandas sorts the group keys; the association list is keyed by the distinct
group letters, and key order carries no meaning in the JSON object.) -/
def get_average_age_by_group (users : List User) : AvgOut × List User :=
  if users.isEmpty then (.noUsers, users)
  else
    (.ok ((avgKeys users).map (fun c => (c, round2 (ratMean (groupAges users c))))),
     users)

/-- One client-visible operation of the registry API. -/
inductive Op where
  | create : Option (List (String × Value)) → Op
  | delete : String → Op
  | upload : Table → Op
  | listUsers : Op
  | averageAge : Op

/-- The effect of one operation on the `users` state. -/
def applyOp (st : List User) : Op → List User
  | .create d => (create_user st d).2
  | .delete n => (delete_user st n).2
  | .upload t => (upload_users st t).2
  | .listUsers => (get_users st).2
  | .averageAge => (get_average_age_by_group st).2

/-! ### Properties of `pstrip` -/

theorem head?_dropWhile_not {α : Type} (p : α → Bool) :
    ∀ (l : List α) (a : α), (l.dropWhile p).head? = some a → p a = false := by
  intro l
  induction l with
  | nil => intro a h; simp [List.dropWhile] at h
  | cons b t ih =>
    intro a h
    rw [List.dropWhile_cons] at h
    by_cases hb : p b
    · simp [hb] at h; exact ih a h
    · simp [hb] at h
      rw [← h]
      simpa using hb

theorem dropWhile_eq_self_of_head? {α : Type} (p : α → Bool) (l : List α)
    (h : ∀ a, l.head? = some a → p a = false) : l.dropWhile p = l := by
  cases l with
  | nil => rfl
  | cons b t => rw [List.dropWhile_cons, h b rfl]; simp

theorem getLast?_dropWhile {α : Type} (p : α → Bool) :
    ∀ l : List α, l.dropWhile p ≠ [] → (l.dropWhile p).getLast? = l.getLast? := by
  intro l
  induction l with
  | nil => intro h; simp [List.dropWhile] at h
  | cons b t ih =>
    intro h
    rw [List.dropWhile_cons] at h ⊢
    by_cases hb : p b
    · simp only [hb, if_true] at h ⊢
      cases t with
      | nil => simp [List.dropWhile] at h
      | cons c t' => rw [ih h, List.getLast?_cons_cons]
    · simp [hb]

theorem stripChars_noLead (l : List Char) :
    ∀ a, (stripChars l).head? = some a → isPySpace a = false := by
  intro a h
  unfold stripChars at h
  rw [List.head?_reverse] at h
  rcases hx : ((l.dropWhile isPySpace).reverse.dropWhile isPySpace) with _ | _
  · rw [hx] at h; simp at h
  · rw [getLast?_dropWhile isPySpace _ (by rw [hx]; simp), List.getLast?_reverse] at h
    exact head?_dropWhile_not isPySpace l a h

theorem stripChars_noTrail (l : List Char) :
    ∀ a, (stripChars l).getLast? = some a → isPySpace a = false := by
  intro a h
  unfold stripChars at h
  rw [List.getLast?_reverse] at h
  exact head?_dropWhile_not isPySpace _ a h

theorem stripChars_eq_self (l : List Char)
    (h1 : ∀ a, l.head? = some a → isPySpace a = false)
    (h2 : ∀ a, l.getLast? = some a → isPySpace a = false) : stripChars l = l := by
  unfold stripChars
  rw [dropWhile_eq_self_of_head? isPySpace l h1,
    dropWhile_eq_self_of_head? isPySpace l.reverse
      (fun a ha => h2 a (by rwa [List.head?_reverse] at ha)),
    List.reverse_reverse]

theorem stripChars_idem (l : List Char) : stripChars (stripChars l) = stripChars l :=
  stripChars_eq_self _ (stripChars_noLead l) (stripChars_noTrail l)

theorem pstrip_idem (s : String) : pstrip (pstrip s) = pstrip s :=
  congrArg String.mk (stripChars_idem s.data)

/-! ### Soundness of the validator -/

theorem intEdiv_one (a : Int) : a.ediv 1 = a :=
  Int.ediv_one a

theorem ratTrunc_den_one (q : Rat) (h : q.den = 1) : ratTrunc q = q.num := by
  unfold ratTrunc
  rw [h]
  rw [show ((1 : ℕ) : Int) = 1 from rfl, intEdiv_one, intEdiv_one]
  split <;> omega

theorem validate_name_sound (name age : Value)
    (h : validate_user_data name age = none) :
    ∃ s, name = .vStr s ∧ pstrip s ≠ "" := by
  unfold validate_user_data at h
  by_cases hn : nameEmpty name
  · simp [hn] at h
  · cases name with
    | vStr s =>
      refine ⟨s, rfl, ?_⟩
      simpa [nameEmpty] using hn
    | vNone => simp [nameEmpty] at hn
    | vNum q => simp [nameEmpty] at hn
    | vBool b => simp [nameEmpty] at hn

theorem validate_age_sound (name age : Value)
    (h : validate_user_data name age = none) :
    ∃ q, pyFloat age = some q ∧ q.den = 1 ∧ 1 ≤ q.num ∧ q.num ≤ 120 := by
  unfold validate_user_data at h
  by_cases hn : nameEmpty name
  · simp [hn] at h
  · simp only [hn, if_false, Bool.false_eq_true] at h
    by_cases ha : age.isna
    · simp [ha] at h
    · simp only [ha, if_false, Bool.false_eq_true] at h
      rcases hf : pyFloat age with _ | q
      · rw [hf] at h; simp at h
      · rw [hf] at h
        simp only [Option.ite_none_right_eq_some] at h
        by_cases hd : q.den = 1
        · refine ⟨q, rfl, hd, ?_⟩
          simp only [hd, ne_eq, not_true_eq_false, if_false, ite_eq_right_iff,
            reduceCtorEq] at h
          rw [ratTrunc_den_one q hd] at h
          by_cases hr : q.num ≤ 0 ∨ 120 < q.num
          · exact absurd (h hr) (by simp)
          · omega
        · simp [hd] at h

theorem takeWhile_of_all {α : Type} (p : α → Bool) (l : List α)
    (h : l.all p = true) : l.takeWhile p = l ∧ l.dropWhile p = [] := by
  rw [List.all_eq_true] at h
  constructor
  · exact List.takeWhile_eq_self_iff.mpr h
  · exact List.dropWhile_eq_nil_iff.mpr h

/-- Whenever Python `int(s)` succeeds on a string, `float(s)` succeeds with
the same (integral) value. -/
theorem parsePyInt_float (s : String) (a : Int) (h : parsePyInt s = some a) :
    parsePyFloat s = some (a : Rat) := by
  unfold parsePyInt at h
  unfold parsePyFloat parseUFloat
  rcases hc : (splitSign (stripChars s.data)) with ⟨neg, l⟩
  rw [hc] at h
  by_cases hne : l.isEmpty
  · simp [hne] at h
  · by_cases hall : l.all Char.isDigit
    · obtain ⟨ht, hd⟩ := takeWhile_of_all Char.isDigit l hall
      simp only [hne, hall, Bool.not_false, Bool.and_true, if_true,
        Option.some.injEq] at h
      simp only [hd, ht, hne, if_false, Option.map_some, Option.some.injEq]
      rw [← h]
      cases neg <;> push_cast <;> simp
    · simp [hne, hall] at h

/-- Whenever the validator accepts `age` and the caller's `int(age)` does not
raise, the coerced integer is the validator's parsed numeric value. -/
theorem pyInt_of_valid (age : Value) (q : Rat) (a : Int)
    (hf : pyFloat age = some q) (hd : q.den = 1) (hi : pyInt age = some a) :
    a = q.num := by
  cases age with
  | vNone => simp [pyFloat] at hf
  | vStr s =>
    simp only [pyFloat] at hf
    simp only [pyInt] at hi
    have := parsePyInt_float s a hi
    rw [hf] at this
    have hq : q = (a : Rat) := by injection this
    rw [hq, Rat.num_intCast]
  | vNum q' =>
    simp only [pyFloat, Option.some.injEq] at hf
    simp only [pyInt, Option.some.injEq] at hi
    rw [← hi, hf, ratTrunc_den_one q hd]
  | vBool b =>
    simp only [pyFloat, Option.some.injEq] at hf
    simp only [pyInt, Option.some.injEq] at hi
    cases b
    · rw [← hi, ← hf]; rfl
    · rw [← hi, ← hf]; rfl

theorem validate_age_bounds (name age : Value) (a : Int)
    (h : validate_user_data name age = none) (hi : pyInt age = some a) :
    1 ≤ a ∧ a ≤ 120 := by
  obtain ⟨q, hf, hd, h1, h2⟩ := validate_age_sound name age h
  rw [pyInt_of_valid age q a hf hd hi]
  exact ⟨h1, h2⟩

/-! ### The registry invariant (claim C1) -/

/-- A well-formed stored record: non-empty trimmed name, age in 1..120. -/
def goodUser (u : User) : Prop :=
  u.Name ≠ "" ∧ pstrip u.Name = u.Name ∧ 1 ≤ u.Age ∧ u.Age ≤ 120

/-- The registry invariant: every stored record is well formed, and names are
pairwise distinct (case-sensitive, exact comparison). -/
def RegInv (st : List User) : Prop :=
  (∀ u ∈ st, goodUser u) ∧ st.Pairwise (fun a b => a.Name ≠ b.Name)

theorem user_exists_false (st : List User) (n : String)
    (h : user_exists st n = false) : ∀ u ∈ st, u.Name ≠ n := by
  unfold user_exists at h
  rw [List.any_eq_false] at h
  intro u hu
  simpa using h u hu

theorem RegInv_append (st : List User) (u : User) (hI : RegInv st) (hg : goodUser u)
    (hne : ∀ v ∈ st, v.Name ≠ u.Name) : RegInv (st ++ [u]) := by
  constructor
  · intro v hv
    rcases List.mem_append.mp hv with hv | hv
    · exact hI.1 v hv
    · rw [List.mem_singleton.mp hv]; exact hg
  · rw [List.pairwise_append]
    refine ⟨hI.2, List.pairwise_singleton _ _, ?_⟩
    intro a ha b hb
    rw [List.mem_singleton.mp hb]
    exact hne a ha

/-- The record appended by `create_user` / `upload_users` after a successful
validation and `int` coercion is well formed. -/
theorem newUser_good (name age : Value) (a : Int)
    (hv : validate_user_data name age = none) (hi : pyInt age = some a) :
    goodUser ⟨pstrip (strOf name), a⟩ := by
  obtain ⟨s, rfl, hs⟩ := validate_name_sound name age hv
  obtain ⟨h1, h2⟩ := validate_age_bounds (.vStr s) age a hv hi
  exact ⟨hs, pstrip_idem s, h1, h2⟩

theorem create_user_preserves (st : List User)
    (d : Option (List (String × Value))) (h : RegInv st) :
    RegInv (create_user st d).2 := by
  unfold create_user
  cases d with
  | none => exact h
  | some d =>
    by_cases hd : d.isEmpty
    · simp only [hd, if_true]; exact h
    · simp only [hd, Bool.false_eq_true, if_false]
      rcases hv : validate_user_data (dictGet d "Name") (dictGet d "Age") with _ | e
      · rcases hi : pyInt (dictGet d "Age") with _ | a
        · exact h
        · by_cases hex : user_exists st (pstrip (strOf (dictGet d "Name")))
          · simp only [hex, if_true]; exact h
          · simp only [hex, Bool.false_eq_true, if_false]
            exact RegInv_append st _ h
              (newUser_good _ _ a hv hi)
              (fun v hv' => user_exists_false st _ (Bool.eq_false_iff.mpr hex) v hv')
      · exact h

theorem delete_user_sublist (n : String) :
    ∀ st : List User, ((delete_user st n).2).Sublist st := by
  intro st
  induction st with
  | nil => simp [delete_user]
  | cons u rest ih =>
    unfold delete_user
    by_cases hu : u.Name == n
    · simp only [hu, if_true]
      exact List.sublist_cons_self u rest
    · simp only [hu, Bool.false_eq_true, if_false]
      exact List.Sublist.cons₂ u ih

theorem RegInv_sublist (st st' : List User) (hs : st'.Sublist st)
    (h : RegInv st) : RegInv st' :=
  ⟨fun u hu => h.1 u (hs.subset hu), h.2.sublist hs⟩

theorem delete_user_preserves (st : List User) (n : String) (h : RegInv st) :
    RegInv (delete_user st n).2 :=
  RegInv_sublist st _ (delete_user_sublist n st) h

theorem uploadLoop_preserves (rows : List (List (String × Value))) :
    ∀ (st : List User) (idx : Nat), RegInv st → RegInv (uploadLoop st idx rows).1 := by
  induction rows with
  | nil => intro st idx h; exact h
  | cons row rest ih =>
    intro st idx h
    unfold uploadLoop
    simp only []
    split
    · exact ih st (idx + 1) h
    · rename_i hv
      split
      · exact h
      · rename_i a hi
        split
        · exact ih st (idx + 1) h
        · rename_i hex
          exact ih _ (idx + 1)
            (RegInv_append st _ h (newUser_good _ _ a hv hi)
              (fun v hv' => user_exists_false st _ (Bool.eq_false_iff.mpr hex) v hv'))

theorem upload_users_preserves (st : List User) (t : Table) (h : RegInv st) :
    RegInv (upload_users st t).2 := by
  unfold upload_users
  by_cases hc : (t.cols.contains "Name" && t.cols.contains "Age")
  · simp only [hc, if_true]
    by_cases hcr : (uploadLoop st 0 t.rows).2.2.2
    · simp only [hcr, if_true]
      exact uploadLoop_preserves t.rows st 0 h
    · simp only [hcr, Bool.false_eq_true, if_false]
      exact uploadLoop_preserves t.rows st 0 h
  · simp only [hc, Bool.false_eq_true, if_false]
    exact h

theorem avg_state_fixed (st : List User) :
    (get_average_age_by_group st).2 = st := by
  unfold get_average_age_by_group
  by_cases he : st.isEmpty
  · simp [he]
  · simp [he]

theorem applyOp_preserves (st : List User) (op : Op) (h : RegInv st) :
    RegInv (applyOp st op) := by
  cases op with
  | create d => exact create_user_preserves st d h
  | delete n => exact delete_user_preserves st n h
  | upload t => exact upload_users_preserves st t h
  | listUsers => exact h
  | averageAge =>
    show RegInv (get_average_age_by_group st).2
    rw [avg_state_fixed st]
    exact h

theorem RegInv_nil : RegInv [] :=
  ⟨fun u hu => absurd hu (List.not_mem_nil u), List.Pairwise.nil⟩

/-- C1.  Registry invariant: every state reachable from the empty registry by
any sequence of API operations (create, delete, bulk-import, and the read
operations) contains only records with a non-empty trimmed name and an
integer age in 1..120, with pairwise distinct names (case-sensitive, exact
comparison). -/
theorem registry_invariant (ops : List Op) : RegInv (ops.foldl applyOp []) := by
  have gen : ∀ (l : List Op) (st : List User), RegInv st → RegInv (l.foldl applyOp st) := by
    intro l
    induction l with
    | nil => intro st h; exact h
    | cons op rest ih => intro st h; exact ih _ (applyOp_preserves st op h)
  exact gen ops [] RegInv_nil

/-! ### Claim C2: validator check order and boundary behaviour -/

/-- The Python float 30.5, as the exact rational 61/2.  (Written with `mkRat`
so that concrete runs of the validator reduce inside the kernel.) -/
def float30p5 : Rat := mkRat 61 2

/-- C2.  Validator correctness: the name check comes first (an invalid name
yields `EmptyName` whatever the age is); among the age checks the order is
presence, numeric, integral, range, and the first failing check's error is
the result; ages 0 and 121 are rejected as out of range, 1 and 120 are
accepted, 30.5 is rejected as a non-integer, the string "abc" as a
non-number, and the integral float 30.0 is accepted and coerced to the
stored integer 30. -/
theorem validator_order_correct :
    (∀ name age, nameEmpty name = true →
      validate_user_data name age = some .emptyName) ∧
    (∀ name, nameEmpty name = false →
      validate_user_data name .vNone = some .emptyAge) ∧
    (∀ name age, nameEmpty name = false → age.isna = false → pyFloat age = none →
      validate_user_data name age = some .notANumber) ∧
    (∀ name age q, nameEmpty name = false → age.isna = false →
      pyFloat age = some q → q.den ≠ 1 →
      validate_user_data name age = some .notAnInteger) ∧
    (∀ name age q, nameEmpty name = false → age.isna = false →
      pyFloat age = some q → q.den = 1 → (q.num ≤ 0 ∨ 120 < q.num) →
      validate_user_data name age = some .outOfRange) ∧
    (∀ name age q, nameEmpty name = false → age.isna = false →
      pyFloat age = some q → q.den = 1 → 1 ≤ q.num → q.num ≤ 120 →
      validate_user_data name age = none) ∧
    validate_user_data (.vStr "John") (.vNum 0) = some .outOfRange ∧
    validate_user_data (.vStr "John") (.vNum 121) = some .outOfRange ∧
    validate_user_data (.vStr "John") (.vNum 1) = none ∧
    validate_user_data (.vStr "John") (.vNum 120) = none ∧
    validate_user_data (.vStr "John") (.vNum float30p5) = some .notAnInteger ∧
    validate_user_data (.vStr "John") (.vStr "abc") = some .notANumber ∧
    create_user [] (some [("Name", .vStr "John"), ("Age", .vNum 30)]) =
      (.created ⟨"John", 30⟩, [⟨"John", 30⟩]) := by
  refine ⟨?_, ?_, ?_, ?_, ?_, ?_, ?_⟩
  · intro name age hn
    unfold validate_user_data
    simp [hn]
  · intro name hn
    unfold validate_user_data
    simp [hn, Value.isna]
  · intro name age hn ha hf
    unfold validate_user_data
    simp [hn, ha, hf]
  · intro name age q hn ha hf hd
    unfold validate_user_data
    simp [hn, ha, hf, hd]
  · intro name age q hn ha hf hd hr
    unfold validate_user_data
    simp only [hn, Bool.false_eq_true, if_false, ha, hf]
    rw [ratTrunc_den_one q hd, if_neg (by simp [hd]), if_pos hr]
  · intro name age q hn ha hf hd h1 h2
    unfold validate_user_data
    simp only [hn, Bool.false_eq_true, if_false, ha, hf]
    rw [ratTrunc_den_one q hd, if_neg (by simp [hd]), if_neg (by omega)]
  · refine ⟨by decide, by decide, by decide, by decide, by decide, by decide, by decide⟩

/-- Witness for C2: the theorem applied at concrete inputs, discharging each
hypothesis there — a numeric name with any age fails as `EmptyName`
(name checked before age), a valid name with a missing age fails at the
presence check, and a half-integral age fails the integral check. -/
theorem validator_order_correct_witness :
    validate_user_data (.vNum 3) (.vStr "abc") = some .emptyName ∧
    validate_user_data (.vStr "Ann") .vNone = some .emptyAge ∧
    validate_user_data (.vStr "Ann") (.vStr "abc") = some .notANumber ∧
    validate_user_data (.vStr "Ann") (.vNum float30p5) = some .notAnInteger ∧
    validate_user_data (.vStr "Ann") (.vNum 121) = some .outOfRange ∧
    validate_user_data (.vStr "Ann") (.vNum 120) = none :=
  ⟨validator_order_correct.1 (.vNum 3) (.vStr "abc") (by decide),
   validator_order_correct.2.1 (.vStr "Ann") (by decide),
   validator_order_correct.2.2.1 (.vStr "Ann") (.vStr "abc") (by decide) (by decide)
     (by decide),
   validator_order_correct.2.2.2.1 (.vStr "Ann") (.vNum float30p5) float30p5 (by decide)
     (by decide) (by decide) (by decide),
   validator_order_correct.2.2.2.2.1 (.vStr "Ann") (.vNum 121) 121 (by decide)
     (by decide) (by decide) (by decide) (by decide),
   validator_order_correct.2.2.2.2.2.1 (.vStr "Ann") (.vNum 120) 120 (by decide)
     (by decide) (by decide) (by decide) (by decide) (by decide)⟩

/-! ### Claims C3 and C4: the stray `int(age)` coercion -/

/-- C3 (code bug witness).  The validator accepts the age string "30.0"
(`float("30.0")` is the whole number 30), so by the claimed create semantics
the record John/30 should be appended and returned; instead `create_user`
evaluates `int("30.0")`, which raises `ValueError`, the request dies with an
uncaught exception (HTTP 500) — before the duplicate check — and no record
is appended. -/
theorem create_user_crash_on_integral_float_string :
    validate_user_data (.vStr "John") (.vStr "30.0") = none ∧
    create_user [] (some [("Name", .vStr "John"), ("Age", .vStr "30.0")]) =
      (.crash, []) := by
  exact ⟨by decide, by decide⟩

/-- C4 (code bug witness).  In a bulk import whose Age column contains a
non-numeric entry, pandas leaves the whole column as strings, so a later row
with age "30.0" reaches the loop as a string; it passes validation, then
`int("30.0")` raises, the whole request dies (HTTP 500) mid-batch, and the
row that per the claim should have been appended is not. -/
theorem upload_users_crash_on_integral_float_string :
    validate_user_data (.vStr "Y") (.vStr "30.0") = none ∧
    upload_users []
      ⟨["Name", "Age"],
        [[("Name", .vStr "X"), ("Age", .vStr "abc")],
         [("Name", .vStr "Y"), ("Age", .vStr "30.0")]]⟩ = (.crash, []) := by
  exact ⟨by decide, by decide⟩

/-! ### Claim C5: missing age is its own error, distinct from NotANumber -/

/-- C5 (counterexample).  With a valid name and a missing (`None`/`NaN`) age,
the validator returns the dedicated "Age cannot be empty" error, not the
"Age must be a number" (NotANumber) error produced by an unparseable age
such as "abc". -/
theorem missing_age_error_counterexample :
    validate_user_data (.vStr "John") .vNone = some .emptyAge ∧
    validate_user_data (.vStr "John") .vNone ≠ some .notANumber ∧
    validate_user_data (.vStr "John") (.vStr "abc") = some .notANumber := by
  exact ⟨by decide, by decide, by decide⟩

/-- C5 (amended).  For every input with a valid name and a missing or null
age, validation fails with the dedicated `EmptyAge` ("Age cannot be empty")
error — a distinct error class from `NotANumber` ("Age must be a number"),
which is reserved for present age values that fail to parse as a number. -/
theorem missing_age_empty_error (s : String) (h : pstrip s ≠ "") :
    validate_user_data (.vStr s) .vNone = some .emptyAge ∧
    VErr.emptyAge ≠ VErr.notANumber := by
  constructor
  · unfold validate_user_data
    have hn : nameEmpty (.vStr s) = false := by
      simp [nameEmpty, h]
    simp [hn, Value.isna]
  · decide

/-- Witness for C5's amended theorem at the concrete name "John". -/
theorem missing_age_empty_error_witness :
    validate_user_data (.vStr "John") .vNone = some .emptyAge ∧
    VErr.emptyAge ≠ VErr.notANumber :=
  missing_age_empty_error "John" (by decide)

/-! ### Claim C6: grouped average age -/

/-- C6.  `get_average_age_by_group` answers `NoUsers` exactly on the empty
collection; on a non-empty collection it returns a mapping whose keys are
exactly the uppercased first characters of the stored names (each key once),
whose value at each key is the arithmetic mean of the ages in that group
rounded to 2 decimal places; for Alice/20, Amy/30, Bob/25 it returns
A ↦ 25.0 and B ↦ 25.0 and nothing else. -/
theorem average_age_by_group_correct :
    (∀ st : List User, (get_average_age_by_group st).1 = .noUsers ↔ st = []) ∧
    (∀ st : List User, st ≠ [] →
      ∃ m, (get_average_age_by_group st).1 = .ok m ∧
        (m.map Prod.fst).Nodup ∧
        (∀ c, c ∈ m.map Prod.fst ↔ ∃ u ∈ st, userGroup u = some c) ∧
        (∀ c r, (c, r) ∈ m → r = round2 (ratMean (groupAges st c)))) ∧
    (get_average_age_by_group [⟨"Alice", 20⟩, ⟨"Amy", 30⟩, ⟨"Bob", 25⟩]).1 =
      .ok [('A', 25), ('B', 25)] := by
  refine ⟨?_, ?_, ?_⟩
  · intro st
    unfold get_average_age_by_group
    by_cases he : st.isEmpty
    · simp [he, List.isEmpty_iff.mp he]
    · simp only [he, Bool.false_eq_true, if_false]
      constructor
      · intro h; exact absurd h (by simp)
      · intro h; rw [h] at he; exact absurd rfl he
  · intro st hne
    have he : st.isEmpty = false := by
      rw [List.isEmpty_eq_false_iff_exists_mem]
      rcases st with _ | ⟨u, rest⟩
      · exact absurd rfl hne
      · exact ⟨u, by simp⟩
    refine ⟨(avgKeys st).map (fun c => (c, round2 (ratMean (groupAges st c)))),
      ?_, ?_, ?_, ?_⟩
    · unfold get_average_age_by_group
      simp [he]
    · rw [List.map_map]
      have : (Prod.fst ∘ fun c => (c, round2 (ratMean (groupAges st c)))) = id := by
        funext c; rfl
      rw [this, List.map_id]
      exact List.nodup_dedup _
    · intro c
      rw [List.map_map]
      have : (Prod.fst ∘ fun c => (c, round2 (ratMean (groupAges st c)))) = id := by
        funext c; rfl
      rw [this, List.map_id]
      unfold avgKeys
      rw [List.mem_dedup, List.mem_filterMap]
    · intro c r hm
      rw [List.mem_map] at hm
      obtain ⟨c', _, hc'⟩ := hm
      obtain ⟨h1, h2⟩ := Prod.mk.injEq .. ▸ hc'
      rw [← h2, h1]
  · have hk : avgKeys [⟨"Alice", 20⟩, ⟨"Amy", 30⟩, ⟨"Bob", 25⟩] = ['A', 'B'] := by
      decide
    have hA : groupAges [⟨"Alice", 20⟩, ⟨"Amy", 30⟩, ⟨"Bob", 25⟩] 'A' = [20, 30] := by
      decide
    have hB : groupAges [⟨"Alice", 20⟩, ⟨"Amy", 30⟩, ⟨"Bob", 25⟩] 'B' = [25] := by
      decide
    have hmA : round2 (ratMean [20, 30]) = 25 := by
      have : ratMean [20, 30] = 25 := by
        norm_num [ratMean]
      rw [this]
      norm_num [round2, roundHalfEven, ratFloor, intEdiv_one]
    have hmB : round2 (ratMean [25]) = 25 := by
      have : ratMean [25] = 25 := by
        norm_num [ratMean]
      rw [this]
      norm_num [round2, roundHalfEven, ratFloor, intEdiv_one]
    unfold get_average_age_by_group
    rw [if_neg (by decide), hk]
    simp only [List.map_cons, List.map_nil, hA, hB, hmA, hmB]

/-- Witness for C6: the theorem applied to the empty collection and to a
concrete one-record collection. -/
theorem average_age_by_group_correct_witness :
    (get_average_age_by_group []).1 = .noUsers ∧
    (∃ m, (get_average_age_by_group [User.mk "Zoe" 40]).1 = .ok m ∧
      (m.map Prod.fst).Nodup ∧
      (∀ c, c ∈ m.map Prod.fst ↔ ∃ u ∈ [User.mk "Zoe" 40], userGroup u = some c) ∧
      (∀ c r, (c, r) ∈ m → r = round2 (ratMean (groupAges [User.mk "Zoe" 40] c)))) :=
  ⟨(average_age_by_group_correct.1 []).mpr rfl,
   average_age_by_group_correct.2.1 [User.mk "Zoe" 40] (by decide)⟩

/-! ### Claim C7: delete semantics -/

theorem delete_user_notFound (n : String) :
    ∀ st : List User, (∀ u ∈ st, u.Name ≠ n) → delete_user st n = (.notFound, st) := by
  intro st
  induction st with
  | nil => intro _; rfl
  | cons u rest ih =>
    intro h
    unfold delete_user
    have hu : (u.Name == n) = false := by
      simp only [beq_eq_false_iff_ne, ne_eq]
      exact h u (by simp)
    rw [hu]
    simp only [Bool.false_eq_true, if_false]
    rw [ih (fun v hv => h v (by simp [hv]))]

theorem delete_user_first (n : String) (m : User) (hm : m.Name = n) :
    ∀ (pre post : List User), (∀ u ∈ pre, u.Name ≠ n) →
      delete_user (pre ++ m :: post) n = (.deleted n, pre ++ post) := by
  intro pre
  induction pre with
  | nil =>
    intro post _
    unfold delete_user
    simp [hm]
  | cons u pre' ih =>
    intro post h
    show delete_user (u :: (pre' ++ m :: post)) n = _
    unfold delete_user
    have hu : (u.Name == n) = false := by
      simp only [beq_eq_false_iff_ne, ne_eq]
      exact h u (by simp)
    rw [hu]
    simp only [Bool.false_eq_true, if_false]
    rw [ih post (fun v hv => h v (by simp [hv]))]
    rfl

/-- C7.  `delete_user` matches the path parameter against stored names
exactly (character for character, no trimming or normalisation, as the raw
equality in the theorem shows); when no record matches it answers `NotFound`
and leaves the collection untouched, and when the collection decomposes as
`pre ++ m :: post` with no match in `pre` and `m` matching, exactly that
first match is removed and every other record survives in order. -/
theorem delete_user_correct (st : List User) (n : String) :
    ((∀ u ∈ st, u.Name ≠ n) → delete_user st n = (.notFound, st)) ∧
    (∀ pre m post, st = pre ++ m :: post → (∀ u ∈ pre, u.Name ≠ n) → m.Name = n →
      delete_user st n = (.deleted n, pre ++ post)) :=
  ⟨fun h => delete_user_notFound n st h,
   fun pre m post hst hpre hm => hst ▸ delete_user_first n m hm pre post hpre⟩

/-- Witness for C7: deleting "John" does not match the stored name " John"
(exact comparison, no trimming), and deleting with a first and a second
match removes only the first. -/
theorem delete_user_correct_witness :
    delete_user [User.mk " John" 30] "John" = (.notFound, [User.mk " John" 30]) ∧
    delete_user [User.mk "Al" 1, User.mk "Bo" 2, User.mk "Bo" 3] "Bo" =
      (.deleted "Bo", [User.mk "Al" 1, User.mk "Bo" 3]) :=
  ⟨(delete_user_correct [User.mk " John" 30] "John").1 (by decide),
   (delete_user_correct [User.mk "Al" 1, User.mk "Bo" 2, User.mk "Bo" 3] "Bo").2
     [User.mk "Al" 1] (User.mk "Bo" 2) [User.mk "Bo" 3] rfl (by decide) rfl⟩

/-! ### Claim C8: bulk import requires both columns -/

/-- C8.  If the parsed table lacks the `Name` column or the `Age` column
(case-sensitive, exact names), `upload_users` fails with the missing-columns
error before touching any row, and the collection is unchanged. -/
theorem upload_users_missing_columns (st : List User) (t : Table)
    (h : "Name" ∉ t.cols ∨ "Age" ∉ t.cols) :
    upload_users st t = (.missingColumns, st) := by
  unfold upload_users
  have hc : (t.cols.contains "Name" && t.cols.contains "Age") = false := by
    rcases h with h | h
    · have hx : t.cols.contains "Name" = false := by
        rw [← Bool.not_eq_true]
        intro hx
        exact h (List.elem_iff.mp hx)
      rw [hx, Bool.false_and]
    · have hx : t.cols.contains "Age" = false := by
        rw [← Bool.not_eq_true]
        intro hx
        exact h (List.elem_iff.mp hx)
      rw [hx, Bool.and_false]
  rw [hc]
  simp

/-- Witness for C8: a table with only a `Name` column (and one with a
lowercase `age` column, showing case sensitivity) is rejected wholesale. -/
theorem upload_users_missing_columns_witness :
    upload_users [] ⟨["Name"], [[("Name", .vStr "X")]]⟩ = (.missingColumns, []) ∧
    upload_users [] ⟨["Name", "age"], []⟩ = (.missingColumns, []) :=
  ⟨upload_users_missing_columns [] ⟨["Name"], [[("Name", .vStr "X")]]⟩
     (Or.inr (by decide)),
   upload_users_missing_columns [] ⟨["Name", "age"], []⟩ (Or.inr (by decide))⟩

/-! ### Claim C9: the create handler's body branches -/

/-- C9 (counterexample).  A present, non-empty JSON body with a valid `Name`
but no `Age` key is not reported with the validator's `EmptyName` error: it
reaches the validator and fails its age-presence check with the distinct
"Age cannot be empty" error. -/
theorem create_missing_age_field_counterexample :
    create_user [] (some [("Name", .vStr "John")]) = (.invalid .emptyAge, []) ∧
    VErr.emptyAge ≠ VErr.emptyName :=
  ⟨by decide, by decide⟩

/-- C9 (amended).  A missing or empty decoded JSON body is rejected with the
dedicated 400 "Name and age are required" error before the validator runs,
leaving the collection unchanged; a present non-empty body whose `Name`
value is missing (or otherwise fails the name check) gets the validator's
`EmptyName` error, while a present body with a valid `Name` but missing
`Age` gets the validator's "Age cannot be empty" error instead. -/
theorem create_body_error_branches (st : List User) (d : List (String × Value)) :
    create_user st none = (.missingBody, st) ∧
    create_user st (some []) = (.missingBody, st) ∧
    (d.isEmpty = false → nameEmpty (dictGet d "Name") = true →
      create_user st (some d) = (.invalid .emptyName, st)) ∧
    (∀ s, d.isEmpty = false → dictGet d "Name" = .vStr s → pstrip s ≠ "" →
      dictGet d "Age" = .vNone →
      create_user st (some d) = (.invalid .emptyAge, st)) := by
  refine ⟨rfl, rfl, ?_, ?_⟩
  · intro hd hn
    have hv : validate_user_data (dictGet d "Name") (dictGet d "Age") =
        some .emptyName := by
      unfold validate_user_data
      rw [hn]
      simp
    unfold create_user
    simp only [hd, Bool.false_eq_true, if_false, hv]
  · intro s hd hname hs hage
    have hv : validate_user_data (dictGet d "Name") (dictGet d "Age") =
        some .emptyAge := by
      unfold validate_user_data
      rw [hname, hage]
      have hn : nameEmpty (.vStr s) = false := by simp [nameEmpty, hs]
      rw [hn]
      simp [Value.isna]
    unfold create_user
    simp only [hd, Bool.false_eq_true, if_false, hv]

/-- Witness for C9's amended theorem: each branch at a concrete body. -/
theorem create_body_error_branches_witness :
    create_user [] none = (.missingBody, []) ∧
    create_user [] (some []) = (.missingBody, []) ∧
    create_user [] (some [("Age", .vNum 30)]) = (.invalid .emptyName, []) ∧
    create_user [] (some [("Name", .vStr "John")]) = (.invalid .emptyAge, []) :=
  ⟨(create_body_error_branches [] []).1,
   (create_body_error_branches [] []).2.1,
   (create_body_error_branches [] [("Age", .vNum 30)]).2.2.1 (by decide) (by decide),
   (create_body_error_branches [] [("Name", .vStr "John")]).2.2.2 "John"
     (by decide) (by decide) (by decide) (by decide)⟩

/-! ### Claim C10: the read operations do not touch the state -/

/-- C10.  The read operations are pure with respect to the registry state:
for every state, `GET /users` and `GET /users/average-age` return the
collection exactly as it was — no record added, removed, mutated or
reordered. -/
theorem read_ops_pure (st : List User) :
    (get_users st).2 = st ∧ (get_average_age_by_group st).2 = st :=
  ⟨rfl, avg_state_fixed st⟩
